import Mathlib

/-!
Verification of the claude-flow executor adapter and the
process-execution / log-normalization harness it plugs into.

The adapter itself (configuration record, command construction, spawn,
follow-up spawn, log wiring, availability introspection) is translated
from crates/executors/src/executors/claude_flow.rs.  The shared harness
components the adapter calls into (Message Store, Entry Index Provider,
command builder, prompt composition, drop semantics of process handles)
are not textually present in the repository; they are modelled from the
specification, and each such definition is marked in its doc comment.
-/

/-- Modelled from the spec: the AppendPrompt wrapper used by every adapter
configuration — an optional text fragment appended verbatim to the prompt
supplied by the caller.  The wrapper type itself is declared outside the
visible sources; its shape is fixed by the unit tests in the repository. -/
structure AppendPrompt where
  val : Option String
deriving Repr, DecidableEq

/-- Modelled from the spec: composition of the fully composed prompt text —
the prompt supplied by the caller followed by the configured append text
when one is present.  Behavior fixed by the unit tests in the repository. -/
def AppendPrompt.combine_prompt (a : AppendPrompt) (prompt : String) : String :=
  match a.val with
  | some extra => prompt ++ extra
  | none => prompt

/-- Modelled from the spec: the command override record carried by every
adapter configuration (base command override, additional parameters,
environment overlay); declared outside the visible sources, its fields are
fixed by the tests in the repository. -/
structure CmdOverrides where
  base_command_override : Option String
  additional_params : Option (List String)
  env : Option (List (String × String))
deriving Repr, DecidableEq

/-- The ClaudeFlow adapter configuration record, translated from
crates/executors/src/executors/claude_flow.rs: six configuration fields
plus the flattened command overrides. -/
structure ClaudeFlow where
  append_prompt : AppendPrompt
  non_interactive : Option Bool
  enable_chaining : Option Bool
  agent_id : Option String
  workflow_file : Option String
  task_description : Option String
  cmd : CmdOverrides
deriving Repr, DecidableEq

/-- The all-defaults configuration (every optional field absent), matching
the derived Default instance used throughout the tests. -/
def ClaudeFlow.default : ClaudeFlow :=
  ⟨⟨none⟩, none, none, none, none, none, ⟨none, none, none⟩⟩

/-- Modelled from the spec: the command builder the adapter feeds — a base
command string plus an accumulated, order-preserving parameter list.  The
builder type is declared outside the visible sources; display order in the
repository tests fixes base-before-parameters and accumulation order. -/
structure CommandBuilder where
  base : String
  params : List String
deriving Repr, DecidableEq

/-- Modelled from the spec: a fresh builder holding only the base command. -/
def CommandBuilder.new (base : String) : CommandBuilder :=
  ⟨base, []⟩

/-- Modelled from the spec: set the initial parameter list of the builder. -/
def CommandBuilder.withParams (b : CommandBuilder) (ps : List String) : CommandBuilder :=
  { b with params := ps }

/-- Modelled from the spec: append further parameters, preserving order. -/
def CommandBuilder.extend_params (b : CommandBuilder) (ps : List String) : CommandBuilder :=
  { b with params := b.params ++ ps }

/-- Modelled from the spec: apply the configured command overrides — the
base command is replaced when an override is present and the additional
parameters are appended after all builder parameters. -/
def apply_overrides (b : CommandBuilder) (cmd : CmdOverrides) : CommandBuilder :=
  { base := cmd.base_command_override.getD b.base,
    params := b.params ++ cmd.additional_params.getD [] }

/-- Translation of ClaudeFlow::build_command_builder: chooses the base
command by the non-interactive flag, sets the stream-json format
parameters, then conditionally appends the chaining flag and the agent,
workflow and task arguments, and finally applies the command overrides. -/
def ClaudeFlow.build_command_builder (c : ClaudeFlow) : CommandBuilder :=
  let base_cmd :=
    if c.non_interactive.getD false then "npx -y claude-flow automation"
    else "npx -y claude-flow"
  let builder :=
    ((CommandBuilder.new base_cmd).withParams
      ["--output-format", "stream-json"]).extend_params
      ["--input-format", "stream-json"]
  let builder :=
    if c.enable_chaining.getD false then builder.extend_params ["--chaining"]
    else builder
  let builder :=
    match c.agent_id with
    | some agent_id => builder.extend_params ["--agent", agent_id]
    | none => builder
  let builder :=
    match c.workflow_file with
    | some workflow => builder.extend_params ["--workflow", workflow]
    | none => builder
  let builder :=
    match c.task_description with
    | some task => builder.extend_params ["--task", task]
    | none => builder
  apply_overrides builder c.cmd

/-- Modelled from the spec: the parts a finished builder hands to the
spawn path — the base command and the full ordered argument list. -/
structure CommandParts where
  base : String
  params : List String
deriving Repr, DecidableEq

/-- Modelled from the spec: building the initial invocation from a
builder hands over the base command and the accumulated parameters. -/
def CommandBuilder.build_initial (b : CommandBuilder) : CommandParts :=
  ⟨b.base, b.params⟩

/-- Modelled from the spec: building a follow-up invocation appends the
follow-up arguments after every parameter of the initial invocation. -/
def CommandBuilder.build_follow_up (b : CommandBuilder) (extra : List String) : CommandParts :=
  ⟨b.base, b.params ++ extra⟩

/-- Modelled from the spec: the spawn-attempt error taxonomy — the
executable cannot be located, or the operating system rejects the spawn
(invalid working directory, permission denied). -/
inductive ExecutorError where
  | ExecutableNotFound (name : String)
  | SpawnFailed (msg : String)
deriving Repr, DecidableEq

/-- Oracle for the operating-system effects the spawn path performs:
resolution of the command parts to an executable path and argument
vector, and the group-spawn outcome for a given executable, argument
vector and working directory.  Universally quantifying over this oracle
covers every environment the harness can run in. -/
structure ProcWorld where
  resolve : CommandParts → Except ExecutorError (String × List String)
  group_spawn : String → List String → String → Except ExecutorError Unit

/-- The handle a successful spawn returns: the spawned program, its
arguments and working directory, and the pipe, kill-on-drop and
process-group configuration recorded when the command was assembled. -/
structure SpawnedChild where
  program : String
  args : List String
  cwd : String
  kill_on_drop : Bool
  grouped : Bool
  stdin_piped : Bool
  stdout_piped : Bool
  stderr_piped : Bool
deriving Repr, DecidableEq

/-- One observable process-level effect of a spawn call, in order. -/
inductive SpawnEvent where
  | GroupSpawn (program : String) (args : List String) (cwd : String)
  | StdinWrite (data : String)
  | StdinShutdown
deriving Repr, DecidableEq

/-- Translation of ClaudeFlow::spawn: build the initial command, resolve
it, spawn it as the root of a new process group with every standard
stream piped and kill-on-drop set, write the fully composed prompt to the
piped standard input exactly once, shut the write side down, and only
then return the handle.  The returned trace lists the process-level
effects in the order the call performed them; errors from resolution or
from the group spawn are surfaced unchanged and produce no handle. -/
def ClaudeFlow.spawn (c : ClaudeFlow) (world : ProcWorld) (current_dir : String)
    (prompt : String) : Except ExecutorError (SpawnedChild × List SpawnEvent) :=
  let command_parts := c.build_command_builder.build_initial
  match world.resolve command_parts with
  | .error e => .error e
  | .ok (executable_path, args) =>
    let combined_prompt := c.append_prompt.combine_prompt prompt
    match world.group_spawn executable_path args current_dir with
    | .error e => .error e
    | .ok _ =>
      .ok (⟨executable_path, args, current_dir, true, true, true, true, true⟩,
        [SpawnEvent.GroupSpawn executable_path args current_dir,
         SpawnEvent.StdinWrite combined_prompt,
         SpawnEvent.StdinShutdown])

/-- Translation of ClaudeFlow::spawn_follow_up: identical to spawn except
that the command is built with the follow-up arguments resume plus the
session identifier appended after the initial parameters. -/
def ClaudeFlow.spawn_follow_up (c : ClaudeFlow) (world : ProcWorld) (current_dir : String)
    (prompt : String) (session_id : String) :
    Except ExecutorError (SpawnedChild × List SpawnEvent) :=
  let command_parts := c.build_command_builder.build_follow_up ["--resume", session_id]
  match world.resolve command_parts with
  | .error e => .error e
  | .ok (executable_path, args) =>
    let combined_prompt := c.append_prompt.combine_prompt prompt
    match world.group_spawn executable_path args current_dir with
    | .error e => .error e
    | .ok _ =>
      .ok (⟨executable_path, args, current_dir, true, true, true, true, true⟩,
        [SpawnEvent.GroupSpawn executable_path args current_dir,
         SpawnEvent.StdinWrite combined_prompt,
         SpawnEvent.StdinShutdown])

/-- Outcome of discarding a process handle. -/
inductive DropOutcome where
  | GroupTerminated
  | Leaked
deriving Repr, DecidableEq

/-- Modelled from the spec: abandonment semantics of a process handle —
a handle whose command was configured with kill-on-drop and spawned as a
process group has its whole group terminated when it is discarded without
wait having completed; any other handle may leak its process tree.  The
handle type and its drop behavior live outside the visible sources. -/
def dropWithoutWait (h : SpawnedChild) : DropOutcome :=
  if h.kill_on_drop && h.grouped then DropOutcome.GroupTerminated else DropOutcome.Leaked

/-- Modelled from the spec: one normalized log entry once committed — a
monotonic unique sequence number plus its payload (payload abstracted to
a string, since only sequencing is at issue here). -/
structure Entry where
  sequence : Nat
  payload : String
deriving Repr, DecidableEq

/-- Modelled from the spec: the Message Store — the append-only,
order-preserving collection of committed entries for one run.  The store
type lives outside the visible sources. -/
structure MsgStore where
  history : List Entry
deriving Repr, DecidableEq

/-- A store holding no entries yet. -/
def MsgStore.empty : MsgStore := ⟨[]⟩

/-- Modelled from the spec: the synchronous full-history snapshot. -/
def MsgStore.get_all (s : MsgStore) : List Entry := s.history

/-- One past the highest sequence number present in the store, and zero
for an empty store. -/
def MsgStore.maxSeqSucc (s : MsgStore) : Nat :=
  s.history.foldr (fun e m => max (e.sequence + 1) m) 0

/-- Modelled from the spec: the stream a subscriber observes — the full
history replay followed by live entries is, once the run is over, the
final history from the observed start point onward.  A fresh subscription
starts at point zero; the start point parameter also covers stores whose
numbering began past zero. -/
def MsgStore.subscribeFrom (s : MsgStore) (k : Nat) : List Entry :=
  s.history.drop k

/-- Modelled from the spec: the Entry Index Provider — a counter shared
across producers, identified by an allocation id; cloning hands out the
same underlying counter.  The provider type lives outside the visible
sources. -/
structure EntryIndexProvider where
  id : Nat
  start : Nat
deriving Repr, DecidableEq

/-- Modelled from the spec: cloning the provider shares the same counter. -/
def EntryIndexProvider.clone (p : EntryIndexProvider) : EntryIndexProvider := p

/-- Modelled from the spec: start_from initializes the counter to one past
the highest sequence number already present in the store. -/
def EntryIndexProvider.start_from (store : MsgStore) (freshId : Nat) : EntryIndexProvider :=
  ⟨freshId, store.maxSeqSucc⟩

/-- The value the k-th call to next on the provider returns: the counter
starts at the configured start value and each call increments it. -/
def EntryIndexProvider.issued (p : EntryIndexProvider) (k : Nat) : Nat :=
  p.start + k

/-- Modelled from the spec: the sequencing state of one run — the shared
counter together with the store.  Sequence-number assignment is the
ordering authority, so assignment and append form one atomic commit. -/
structure StoreState where
  counter : Nat
  store : MsgStore
deriving Repr, DecidableEq

/-- Modelled from the spec: committing one entry — it receives the next
counter value as its sequence number and is appended to the history. -/
def StoreState.push (s : StoreState) (payload : String) : StoreState :=
  ⟨s.counter + 1, ⟨s.store.history ++ [⟨s.counter, payload⟩]⟩⟩

/-- One interleaving of concurrent pushes: each commit is atomic, so any
concurrent execution is some sequential order of the committed pushes. -/
def runPushes (s : StoreState) (ps : List String) : StoreState :=
  ps.foldl StoreState.push s

/-- The entry list a subscriber with observed start point k sees after a
run of pushes into a fresh store. -/
def observedStream (ps : List String) (k : Nat) : List Entry :=
  (runPushes ⟨0, MsgStore.empty⟩ ps).store.subscribeFrom k

/-- The entries a run of pushes appends, numbered consecutively from n. -/
def pushedEntries (n : Nat) : List String → List Entry
  | [] => []
  | p :: ps => ⟨n, p⟩ :: pushedEntries (n + 1) ps

/-- History strategy selector passed to the stdout log processor. -/
inductive HistoryStrategy where
  | Default
deriving Repr, DecidableEq

/-- One attachment of a log processor: the destination store (by shared
reference id, since the store is passed by reference-counted pointer) and
the index provider instance it draws sequence numbers from. -/
structure LogAttachment where
  storeId : Nat
  provider : EntryIndexProvider
deriving Repr, DecidableEq

/-- The wiring normalize_logs sets up: the stdout processor attachment
with its history strategy, and the stderr processor attachment. -/
structure LogWiring where
  stdoutAttachment : LogAttachment
  stdoutStrategy : HistoryStrategy
  stderrAttachment : LogAttachment
deriving Repr, DecidableEq

/-- Translation of ClaudeFlow::normalize_logs: obtain one
EntryIndexProvider via start_from on the store, attach the Claude stdout
log processor with the default history strategy to a clone of the store
reference and a clone of the provider, then attach the standard stderr
processor to the same store reference and the same provider. -/
def ClaudeFlow.normalize_logs (c : ClaudeFlow) (storeId : Nat) (store : MsgStore)
    (freshId : Nat) : LogWiring :=
  let entry_index_provider := EntryIndexProvider.start_from store freshId
  { stdoutAttachment := ⟨storeId, entry_index_provider.clone⟩,
    stdoutStrategy := HistoryStrategy.Default,
    stderrAttachment := ⟨storeId, entry_index_provider⟩ }

/-- The availability introspection result, as declared by the executor
interface: not installed, installed but not logged in, or a detected
login carrying the last authentication timestamp. -/
inductive AvailabilityInfo where
  | NotFound
  | InstallationFound
  | LoginDetected (last_auth_timestamp : Int)
deriving Repr, DecidableEq

/-- View of the filesystem state the availability check reads: the home
directory when one is known, and for each path the modification time of
the file there in whole seconds since the Unix epoch — absent when the
file or its metadata or its modification time is unreadable, or the time
is before the epoch.  Paths are component lists. -/
structure FsView where
  home_dir : Option (List String)
  modified_secs : List String → Option Nat

/-- The value of casting an unsigned 64-bit second count to a signed
64-bit integer, as the source does: wraps at two to the 63rd. -/
def i64_wrap (n : Nat) : Int :=
  if n % 2 ^ 64 < 2 ^ 63 then ((n % 2 ^ 64 : Nat) : Int)
  else ((n % 2 ^ 64 : Nat) : Int) - 2 ^ 64

/-- Translation of ClaudeFlow::default_mcp_config_path: the claude-flow
configuration file inside the home directory, when a home is known. -/
def ClaudeFlow.default_mcp_config_path (c : ClaudeFlow) (fs : FsView) :
    Option (List String) :=
  fs.home_dir.map (fun home => home ++ [".claude-flow", "config.json"])

/-- Translation of ClaudeFlow::get_availability_info: when the config
path exists and its modification time since the epoch is readable, report
a detected login with that time in whole seconds (cast to signed 64-bit);
otherwise report not found. -/
def ClaudeFlow.get_availability_info (c : ClaudeFlow) (fs : FsView) : AvailabilityInfo :=
  match c.default_mcp_config_path fs with
  | some path =>
    match fs.modified_secs path with
    | some secs => AvailabilityInfo.LoginDetected (i64_wrap secs)
    | none => AvailabilityInfo.NotFound
  | none => AvailabilityInfo.NotFound

/-- A JSON value, for the serialization round-trip of the configuration. -/
inductive JsonVal where
  | null
  | bool (b : Bool)
  | str (s : String)
  | arr (elems : List JsonVal)
  | obj (fields : List (String × JsonVal))

/-- The field a skipped-when-absent optional value serializes to:
nothing when absent, one field when present. -/
def optField (name : String) (v : Option JsonVal) : List (String × JsonVal) :=
  match v with
  | some j => [(name, j)]
  | none => []

/-- Modelled from the spec: JSON serialization of the command overrides —
the record is declared outside the visible sources; the flattened fields
with absent options skipped follow the codebase serialization style fixed
by the repository round-trip tests. -/
def CmdOverrides.toJsonFields (cmd : CmdOverrides) : List (String × JsonVal) :=
  optField "base_command_override" (cmd.base_command_override.map JsonVal.str) ++
  optField "additional_params"
    (cmd.additional_params.map (fun ps => JsonVal.arr (ps.map JsonVal.str))) ++
  optField "env"
    (cmd.env.map (fun kvs => JsonVal.obj (kvs.map (fun kv => (kv.1, JsonVal.str kv.2)))))

/-- Modelled from the spec: the transparent serialization of the append
prompt wrapper — the inner optional string itself, null when absent, as
fixed by the repository deserialization tests. -/
def AppendPrompt.toJson (a : AppendPrompt) : JsonVal :=
  match a.val with
  | some s => JsonVal.str s
  | none => JsonVal.null

/-- The object body the configuration serializes to, as the serde
attributes in the source dictate: the append prompt field is always
emitted, the five skipped-when-absent optional fields follow, and the
flattened command override fields close the object. -/
def ClaudeFlow.toJsonFields (c : ClaudeFlow) : List (String × JsonVal) :=
  [("append_prompt", c.append_prompt.toJson)] ++
  optField "non_interactive" (c.non_interactive.map JsonVal.bool) ++
  optField "enable_chaining" (c.enable_chaining.map JsonVal.bool) ++
  optField "agent_id" (c.agent_id.map JsonVal.str) ++
  optField "workflow_file" (c.workflow_file.map JsonVal.str) ++
  optField "task_description" (c.task_description.map JsonVal.str) ++
  c.cmd.toJsonFields

/-- JSON serialization of the configuration. -/
def ClaudeFlow.toJson (c : ClaudeFlow) : JsonVal :=
  JsonVal.obj c.toJsonFields

/-- First value bound to the given field name in a JSON object body. -/
def lookupField : List (String × JsonVal) → String → Option JsonVal
  | [], _ => none
  | (k, v) :: rest, name => if k = name then some v else lookupField rest name

/-- Decode an optional string field: absent or null means absent, a
string means present, anything else is a decode failure. -/
def decodeOptStr (fields : List (String × JsonVal)) (name : String) :
    Option (Option String) :=
  match lookupField fields name with
  | none => some none
  | some JsonVal.null => some none
  | some (JsonVal.str s) => some (some s)
  | some _ => none

/-- Decode an optional flag field, in the same discipline. -/
def decodeOptBool (fields : List (String × JsonVal)) (name : String) :
    Option (Option Bool) :=
  match lookupField fields name with
  | none => some none
  | some JsonVal.null => some none
  | some (JsonVal.bool b) => some (some b)
  | some _ => none

/-- Decode a JSON array of strings. -/
def decodeStrList : List JsonVal → Option (List String)
  | [] => some []
  | JsonVal.str s :: rest => (decodeStrList rest).map (fun xs => s :: xs)
  | _ => none

/-- Decode a JSON object body whose values are all strings. -/
def decodeEnvFields : List (String × JsonVal) → Option (List (String × String))
  | [] => some []
  | (k, JsonVal.str s) :: rest => (decodeEnvFields rest).map (fun xs => (k, s) :: xs)
  | _ => none

/-- Decode the optional additional-parameter list. -/
def decodeOptParams (fields : List (String × JsonVal)) (name : String) :
    Option (Option (List String)) :=
  match lookupField fields name with
  | none => some none
  | some JsonVal.null => some none
  | some (JsonVal.arr xs) => (decodeStrList xs).map some
  | some _ => none

/-- Decode the optional environment overlay map. -/
def decodeOptEnv (fields : List (String × JsonVal)) (name : String) :
    Option (Option (List (String × String))) :=
  match lookupField fields name with
  | none => some none
  | some JsonVal.null => some none
  | some (JsonVal.obj kvs) => (decodeEnvFields kvs).map some
  | some _ => none

/-- Decode the append prompt field: a missing field takes the default. -/
def decodeAppendPrompt (fields : List (String × JsonVal)) : Option AppendPrompt :=
  match lookupField fields "append_prompt" with
  | none => some ⟨none⟩
  | some JsonVal.null => some ⟨none⟩
  | some (JsonVal.str s) => some ⟨some s⟩
  | some _ => none

/-- JSON deserialization of the configuration: each declared field is
decoded from the object body (defaults for missing fields), the flattened
override fields are collected from the same body, and any shape mismatch
fails the whole decode. -/
def ClaudeFlow.fromJson (j : JsonVal) : Option ClaudeFlow :=
  match j with
  | JsonVal.obj fields =>
    match decodeAppendPrompt fields,
          decodeOptBool fields "non_interactive",
          decodeOptBool fields "enable_chaining",
          decodeOptStr fields "agent_id",
          decodeOptStr fields "workflow_file",
          decodeOptStr fields "task_description",
          decodeOptStr fields "base_command_override",
          decodeOptParams fields "additional_params",
          decodeOptEnv fields "env" with
    | some ap, some ni, some ec, some aid, some wf, some td,
      some bco, some addl, some env =>
      some ⟨ap, ni, ec, aid, wf, td, ⟨bco, addl, env⟩⟩
    | _, _, _, _, _, _, _, _, _ => none
  | _ => none

/-- The parameter tail the claim about command construction predicts:
format parameters, then the chaining flag exactly when enabled, then the
agent, workflow and task arguments exactly when configured, in order. -/
def claudeFlowStandardParams (c : ClaudeFlow) : List String :=
  ["--output-format", "stream-json", "--input-format", "stream-json"] ++
  (if c.enable_chaining = some true then ["--chaining"] else []) ++
  (match c.agent_id with
   | some agent_id => ["--agent", agent_id]
   | none => []) ++
  (match c.workflow_file with
   | some workflow => ["--workflow", workflow]
   | none => []) ++
  (match c.task_description with
   | some task => ["--task", task]
   | none => [])

/-- The world a follow-up spawn is equivalent to running an initial spawn
in: resolution sees the extra arguments already appended. -/
def shiftWorld (w : ProcWorld) (extra : List String) : ProcWorld :=
  { resolve := fun parts => w.resolve ⟨parts.base, parts.params ++ extra⟩,
    group_spawn := w.group_spawn }

/-- A world where resolution and the group spawn both succeed: the base
command resolves to its own name with the accumulated parameters. -/
def worldOk : ProcWorld :=
  { resolve := fun parts => Except.ok (parts.base, parts.params),
    group_spawn := fun _ _ _ => Except.ok () }

/-- A world where resolution fails: the executable cannot be located. -/
def worldNoExec : ProcWorld :=
  { resolve := fun _ => Except.error (ExecutorError.ExecutableNotFound "npx"),
    group_spawn := fun _ _ _ => Except.ok () }

/-- A concrete filesystem view: a known home directory whose claude-flow
configuration file was last modified five seconds after the epoch. -/
def fsWithConfig : FsView :=
  { home_dir := some ["home"],
    modified_secs := fun p =>
      if p = ["home", ".claude-flow", "config.json"] then some 5 else none }

/-! Helper lemmas. -/

/-- Every entry in a list has its sequence number below the fold that
computes one past the highest sequence number. -/
theorem mem_lt_foldrBound (h : List Entry) (e : Entry) (he : e ∈ h) :
    e.sequence < h.foldr (fun en m => max (en.sequence + 1) m) 0 := by
  induction h with
  | nil => simp at he
  | cons a t ih =>
    rcases List.mem_cons.mp he with rfl | he
    · simp only [List.foldr]
      omega
    · have := ih he
      simp only [List.foldr]
      omega

/-- A run of pushes appends exactly the consecutively numbered entries
and advances the counter by the number of pushes. -/
theorem runPushes_history (ps : List String) : ∀ (n : Nat) (h : List Entry),
    (runPushes ⟨n, ⟨h⟩⟩ ps).store.history = h ++ pushedEntries n ps ∧
    (runPushes ⟨n, ⟨h⟩⟩ ps).counter = n + ps.length := by
  induction ps with
  | nil => intro n h; simp [runPushes, pushedEntries]
  | cons p ps ih =>
    intro n h
    have step : runPushes ⟨n, ⟨h⟩⟩ (p :: ps) = runPushes ⟨n + 1, ⟨h ++ [⟨n, p⟩]⟩⟩ ps := by
      simp [runPushes, StoreState.push]
    rw [step]
    obtain ⟨h1, h2⟩ := ih (n + 1) (h ++ [⟨n, p⟩])
    refine ⟨?_, ?_⟩
    · rw [h1, pushedEntries, List.append_assoc]
      rfl
    · rw [h2]
      simp
      omega

/-- The i-th of the consecutively numbered entries carries number n + i. -/
theorem pushedEntries_getElem? : ∀ (ps : List String) (n i : Nat) (e : Entry),
    (pushedEntries n ps)[i]? = some e → e.sequence = n + i := by
  intro ps
  induction ps with
  | nil =>
    intro n i e hl
    simp [pushedEntries] at hl
  | cons p ps ih =>
    intro n i e hl
    cases i with
    | zero =>
      simp [pushedEntries] at hl
      rw [← hl]
      simp
    | succ i =>
      simp only [pushedEntries, List.getElem?_cons_succ] at hl
      have := ih (n + 1) i e hl
      omega

/-- Decoding the string array a string list serializes to restores it. -/
theorem decodeStrList_map_str (xs : List String) :
    decodeStrList (xs.map JsonVal.str) = some xs := by
  induction xs with
  | nil => rfl
  | cons x xs ih => simp [decodeStrList, ih]

/-- Decoding the object body an environment map serializes to restores it. -/
theorem decodeEnvFields_map (kvs : List (String × String)) :
    decodeEnvFields (kvs.map (fun kv => (kv.1, JsonVal.str kv.2))) = some kvs := by
  induction kvs with
  | nil => rfl
  | cons kv kvs ih =>
    obtain ⟨k, v⟩ := kv
    simp [decodeEnvFields, ih]

/-! Claim theorems. -/

/-- C4: for every call to normalize_logs, the stdout normalizer and the
stderr normalizer are attached to the same destination message store and
draw their sequence numbers from one shared Entry Index Provider
instance. -/
theorem c4_normalize_logs_shared_store_and_provider :
    ∀ (c : ClaudeFlow) (storeId : Nat) (store : MsgStore) (freshId : Nat),
      (c.normalize_logs storeId store freshId).stdoutAttachment.storeId =
        (c.normalize_logs storeId store freshId).stderrAttachment.storeId ∧
      (c.normalize_logs storeId store freshId).stdoutAttachment.provider =
        (c.normalize_logs storeId store freshId).stderrAttachment.provider := by
  intro c storeId store freshId
  exact ⟨rfl, rfl⟩

/-- C5: the Entry Index Provider obtained via start_from begins issuing
sequence numbers at one past the highest sequence number present in the
store, so re-invoking normalize_logs on the same store never issues a
number that duplicates an existing entry. -/
theorem c5_start_from_one_past_highest :
    ∀ (c : ClaudeFlow) (storeId : Nat) (store : MsgStore) (freshId : Nat),
      (c.normalize_logs storeId store freshId).stdoutAttachment.provider.start =
        store.maxSeqSucc ∧
      (∀ e, e ∈ store.history → ∀ k,
        (c.normalize_logs storeId store freshId).stdoutAttachment.provider.issued k ≠
          e.sequence) := by
  intro c storeId store freshId
  refine ⟨rfl, ?_⟩
  intro e he k
  have hlt : e.sequence < store.maxSeqSucc := mem_lt_foldrBound store.history e he
  have : (c.normalize_logs storeId store freshId).stdoutAttachment.provider.issued k =
      store.maxSeqSucc + k := rfl
  omega

/-- Witness for C5 at a store already holding the entry numbered zero. -/
theorem c5_start_from_one_past_highest_witness :
    (ClaudeFlow.default.normalize_logs 0 ⟨[⟨0, "x"⟩]⟩ 0).stdoutAttachment.provider.issued 0 ≠
      (⟨0, "x"⟩ : Entry).sequence :=
  (c5_start_from_one_past_highest ClaudeFlow.default 0 ⟨[⟨0, "x"⟩]⟩ 0).2
    ⟨0, "x"⟩ (by simp) 0

/-- C8: build_command_builder uses the automation base command exactly
when non-interactive is explicitly enabled, always includes the two
stream-json format parameters, appends the chaining flag exactly when
chaining is explicitly enabled, then the agent, workflow and task
arguments exactly when configured, in that order, before the command
overrides are applied. -/
theorem c8_build_command_builder_shape :
    ∀ c : ClaudeFlow,
      c.build_command_builder =
        apply_overrides
          ⟨(if c.non_interactive = some true then "npx -y claude-flow automation"
            else "npx -y claude-flow"),
            claudeFlowStandardParams c⟩ c.cmd := by
  intro c
  obtain ⟨ap, ni, ec, aid, wf, td, cmd⟩ := c
  rcases ni with _ | _ | _ <;> rcases ec with _ | _ | _ <;>
    rcases aid with _ | a <;> rcases wf with _ | w <;> rcases td with _ | t <;>
      rfl

/-- C6: spawn_follow_up builds the same command as spawn with the resume
arguments appended after every initial parameter, and otherwise behaves
identically to spawn: running it equals running spawn in the world whose
resolution sees the resume arguments already appended. -/
theorem c6_spawn_follow_up_appends_resume :
    ∀ (c : ClaudeFlow) (w : ProcWorld) (cwd prompt session_id : String),
      (c.build_command_builder.build_follow_up ["--resume", session_id]).base =
        c.build_command_builder.build_initial.base ∧
      (c.build_command_builder.build_follow_up ["--resume", session_id]).params =
        c.build_command_builder.build_initial.params ++ ["--resume", session_id] ∧
      c.spawn_follow_up w cwd prompt session_id =
        c.spawn (shiftWorld w ["--resume", session_id]) cwd prompt := by
  intro c w cwd prompt session_id
  exact ⟨rfl, rfl, rfl⟩

/-- C1: for every sequence of concurrent pushes into a fresh store, the
sequence numbers any subscriber observes are gap-free (the i-th observed
entry carries number start point plus i) and strictly increasing in
commit order, with no number reused. -/
theorem c1_subscribe_sequences_monotone_gapfree :
    ∀ (ps : List String) (k : Nat),
      (∀ (i : Nat) (e : Entry), (observedStream ps k)[i]? = some e → e.sequence = k + i) ∧
      (∀ (i j : Nat) (ei ej : Entry), i < j → (observedStream ps k)[i]? = some ei →
        (observedStream ps k)[j]? = some ej →
        ei.sequence < ej.sequence ∧ ej.sequence = ei.sequence + (j - i)) := by
  intro ps k
  have hist : (runPushes ⟨0, MsgStore.empty⟩ ps).store.history = pushedEntries 0 ps := by
    have := (runPushes_history ps 0 []).1
    simpa [MsgStore.empty] using this
  have key : ∀ (i : Nat) (e : Entry), (observedStream ps k)[i]? = some e → e.sequence = k + i := by
    intro i e hl
    rw [observedStream, MsgStore.subscribeFrom, List.getElem?_drop, hist] at hl
    have := pushedEntries_getElem? ps 0 (k + i) e hl
    omega
  refine ⟨key, ?_⟩
  intro i j ei ej hij hi hj
  have h1 := key i ei hi
  have h2 := key j ej hj
  omega

/-- Witness for C1: three pushes, a subscriber with start point one. -/
theorem c1_subscribe_sequences_monotone_gapfree_witness :
    (⟨1, "b"⟩ : Entry).sequence < (⟨2, "c"⟩ : Entry).sequence ∧
    (⟨2, "c"⟩ : Entry).sequence = (⟨1, "b"⟩ : Entry).sequence + (1 - 0) :=
  (c1_subscribe_sequences_monotone_gapfree ["a", "b", "c"] 1).2 0 1 ⟨1, "b"⟩ ⟨2, "c"⟩
    (by decide) rfl rfl

/-- C2: on every successful spawn and follow-up spawn, the trace of
process-level effects the call performed before returning its handle is
the group spawn, then exactly one write of the fully composed prompt to
standard input, then the shutdown of the write side. -/
theorem c2_prompt_written_once_then_shutdown :
    ∀ (c : ClaudeFlow) (w : ProcWorld) (cwd prompt session_id : String),
      (∀ h tr, c.spawn w cwd prompt = .ok (h, tr) →
        tr = [SpawnEvent.GroupSpawn h.program h.args cwd,
              SpawnEvent.StdinWrite (c.append_prompt.combine_prompt prompt),
              SpawnEvent.StdinShutdown]) ∧
      (∀ h tr, c.spawn_follow_up w cwd prompt session_id = .ok (h, tr) →
        tr = [SpawnEvent.GroupSpawn h.program h.args cwd,
              SpawnEvent.StdinWrite (c.append_prompt.combine_prompt prompt),
              SpawnEvent.StdinShutdown]) := by
  intro c w cwd prompt session_id
  constructor
  · intro h tr hok
    simp only [ClaudeFlow.spawn] at hok
    split at hok
    · exact absurd hok (by simp)
    · split at hok
      · exact absurd hok (by simp)
      · simp only [Except.ok.injEq, Prod.mk.injEq] at hok
        obtain ⟨hh, ht⟩ := hok
        subst hh
        subst ht
        rfl
  · intro h tr hok
    simp only [ClaudeFlow.spawn_follow_up] at hok
    split at hok
    · exact absurd hok (by simp)
    · split at hok
      · exact absurd hok (by simp)
      · simp only [Except.ok.injEq, Prod.mk.injEq] at hok
        obtain ⟨hh, ht⟩ := hok
        subst hh
        subst ht
        rfl

/-- Witness for C2 in a world where resolution and spawn succeed. -/
theorem c2_prompt_written_once_then_shutdown_witness :
    ([SpawnEvent.GroupSpawn "npx -y claude-flow"
        ["--output-format", "stream-json", "--input-format", "stream-json"] "/tmp",
      SpawnEvent.StdinWrite "hi",
      SpawnEvent.StdinShutdown] : List SpawnEvent) =
    [SpawnEvent.GroupSpawn "npx -y claude-flow"
        ["--output-format", "stream-json", "--input-format", "stream-json"] "/tmp",
      SpawnEvent.StdinWrite (ClaudeFlow.default.append_prompt.combine_prompt "hi"),
      SpawnEvent.StdinShutdown] :=
  (c2_prompt_written_once_then_shutdown ClaudeFlow.default worldOk "/tmp" "hi" "s").1
    ⟨"npx -y claude-flow",
      ["--output-format", "stream-json", "--input-format", "stream-json"],
      "/tmp", true, true, true, true, true⟩
    [SpawnEvent.GroupSpawn "npx -y claude-flow"
        ["--output-format", "stream-json", "--input-format", "stream-json"] "/tmp",
      SpawnEvent.StdinWrite "hi",
      SpawnEvent.StdinShutdown]
    rfl

/-- C3: every handle spawn or spawn_follow_up returns was configured with
kill-on-drop on a process group, so discarding it without wait having
completed still terminates the entire process group. -/
theorem c3_abandoned_handle_terminates_group :
    ∀ (c : ClaudeFlow) (w : ProcWorld) (cwd prompt session_id : String),
      (∀ h tr, c.spawn w cwd prompt = .ok (h, tr) →
        dropWithoutWait h = DropOutcome.GroupTerminated) ∧
      (∀ h tr, c.spawn_follow_up w cwd prompt session_id = .ok (h, tr) →
        dropWithoutWait h = DropOutcome.GroupTerminated) := by
  intro c w cwd prompt session_id
  constructor
  · intro h tr hok
    simp only [ClaudeFlow.spawn] at hok
    split at hok
    · exact absurd hok (by simp)
    · split at hok
      · exact absurd hok (by simp)
      · simp only [Except.ok.injEq, Prod.mk.injEq] at hok
        obtain ⟨hh, _⟩ := hok
        subst hh
        rfl
  · intro h tr hok
    simp only [ClaudeFlow.spawn_follow_up] at hok
    split at hok
    · exact absurd hok (by simp)
    · split at hok
      · exact absurd hok (by simp)
      · simp only [Except.ok.injEq, Prod.mk.injEq] at hok
        obtain ⟨hh, _⟩ := hok
        subst hh
        rfl

/-- Witness for C3: abandoning the handle of a successful spawn. -/
theorem c3_abandoned_handle_terminates_group_witness :
    dropWithoutWait
      ⟨"npx -y claude-flow",
        ["--output-format", "stream-json", "--input-format", "stream-json"],
        "/tmp", true, true, true, true, true⟩ = DropOutcome.GroupTerminated :=
  (c3_abandoned_handle_terminates_group ClaudeFlow.default worldOk "/tmp" "hi" "s").1
    ⟨"npx -y claude-flow",
      ["--output-format", "stream-json", "--input-format", "stream-json"],
      "/tmp", true, true, true, true, true⟩
    [SpawnEvent.GroupSpawn "npx -y claude-flow"
        ["--output-format", "stream-json", "--input-format", "stream-json"] "/tmp",
      SpawnEvent.StdinWrite "hi",
      SpawnEvent.StdinShutdown]
    rfl

/-- C7: spawn surfaces resolution and spawn failures unchanged to the
caller, producing no handle, and in every successful case returns a
handle for a process spawned once (one group-spawn effect) as the root of
a new process group with all three standard streams piped. -/
theorem c7_spawn_error_surface_and_success_shape :
    ∀ (c : ClaudeFlow) (w : ProcWorld) (cwd prompt : String),
      (∀ e, w.resolve c.build_command_builder.build_initial = .error e →
        c.spawn w cwd prompt = .error e) ∧
      (∀ xp args e, w.resolve c.build_command_builder.build_initial = .ok (xp, args) →
        w.group_spawn xp args cwd = .error e →
        c.spawn w cwd prompt = .error e) ∧
      (∀ h tr, c.spawn w cwd prompt = .ok (h, tr) →
        h.grouped = true ∧ h.stdin_piped = true ∧ h.stdout_piped = true ∧
        h.stderr_piped = true ∧
        tr.countP (fun ev => match ev with
          | SpawnEvent.GroupSpawn _ _ _ => true
          | _ => false) = 1) := by
  intro c w cwd prompt
  refine ⟨?_, ?_, ?_⟩
  · intro e he
    simp only [ClaudeFlow.spawn, he]
  · intro xp args e hres hgs
    simp only [ClaudeFlow.spawn, hres, hgs]
  · intro h tr hok
    simp only [ClaudeFlow.spawn] at hok
    split at hok
    · exact absurd hok (by simp)
    · split at hok
      · exact absurd hok (by simp)
      · simp only [Except.ok.injEq, Prod.mk.injEq] at hok
        obtain ⟨hh, ht⟩ := hok
        subst hh
        subst ht
        exact ⟨rfl, rfl, rfl, rfl, rfl⟩

/-- Witness for C7 in a world where the executable cannot be located. -/
theorem c7_spawn_error_surface_and_success_shape_witness :
    ClaudeFlow.default.spawn worldNoExec "/tmp" "hi" =
      Except.error (ExecutorError.ExecutableNotFound "npx") :=
  (c7_spawn_error_surface_and_success_shape ClaudeFlow.default worldNoExec "/tmp" "hi").1
    (ExecutorError.ExecutableNotFound "npx") rfl

/-- C9: availability introspection never reports InstallationFound; it
reports LoginDetected with the configuration file modification time in
whole seconds since the epoch whenever the home directory is known and
that time is readable, and NotFound in every other case. -/
theorem c9_availability_never_installation_found :
    ∀ (c : ClaudeFlow) (fs : FsView),
      c.get_availability_info fs ≠ AvailabilityInfo.InstallationFound ∧
      (∀ (home : List String) (secs : Nat), fs.home_dir = some home →
        fs.modified_secs (home ++ [".claude-flow", "config.json"]) = some secs →
        secs < 2 ^ 63 →
        c.get_availability_info fs = AvailabilityInfo.LoginDetected (secs : Int)) ∧
      (fs.home_dir = none → c.get_availability_info fs = AvailabilityInfo.NotFound) ∧
      (∀ home : List String, fs.home_dir = some home →
        fs.modified_secs (home ++ [".claude-flow", "config.json"]) = none →
        c.get_availability_info fs = AvailabilityInfo.NotFound) := by
  intro c fs
  refine ⟨?_, ?_, ?_, ?_⟩
  · cases hh : fs.home_dir with
    | none =>
      simp [ClaudeFlow.get_availability_info, ClaudeFlow.default_mcp_config_path, hh]
    | some home =>
      cases hm : fs.modified_secs (home ++ [".claude-flow", "config.json"]) with
      | none =>
        simp [ClaudeFlow.get_availability_info, ClaudeFlow.default_mcp_config_path, hh, hm]
      | some secs =>
        simp [ClaudeFlow.get_availability_info, ClaudeFlow.default_mcp_config_path, hh, hm]
  · intro home secs hh hm hlt
    have hi : i64_wrap secs = (secs : Int) := by
      have hmod : secs % 2 ^ 64 = secs := Nat.mod_eq_of_lt (by omega)
      rw [i64_wrap, hmod, if_pos hlt]
    simp [ClaudeFlow.get_availability_info, ClaudeFlow.default_mcp_config_path,
      hh, hm, hi]
  · intro hh
    simp [ClaudeFlow.get_availability_info, ClaudeFlow.default_mcp_config_path, hh]
  · intro home hh hm
    simp [ClaudeFlow.get_availability_info, ClaudeFlow.default_mcp_config_path, hh, hm]

/-- Witness for C9: a home directory whose configuration file was last
modified five seconds after the epoch yields a detected login. -/
theorem c9_availability_never_installation_found_witness :
    ClaudeFlow.default.get_availability_info fsWithConfig =
      AvailabilityInfo.LoginDetected ((5 : Nat) : Int) :=
  (c9_availability_never_installation_found ClaudeFlow.default fsWithConfig).2.1
    ["home"] 5 rfl (by decide) (by decide)

/-- Looking a name up in a concatenated object body tries the first part
first. -/
theorem lookupField_append (xs ys : List (String × JsonVal)) (n : String) :
    lookupField (xs ++ ys) n =
      match lookupField xs n with
      | some v => some v
      | none => lookupField ys n := by
  induction xs with
  | nil => rfl
  | cons p xs ih =>
    obtain ⟨k, v⟩ := p
    by_cases hk : k = n
    · simp [lookupField, hk]
    · simp [lookupField, hk, ih]

/-- A skipped-when-absent field looks up to exactly its optional value. -/
theorem lookupField_optField_same (name : String) (v : Option JsonVal) :
    lookupField (optField name v) name = v := by
  cases v <;> simp [optField, lookupField]

/-- A skipped-when-absent field is invisible under any other name. -/
theorem lookupField_optField_ne (name n : String) (v : Option JsonVal)
    (h : name ≠ n) : lookupField (optField name v) n = none := by
  cases v <;> simp [optField, lookupField, h]

/-- The serialized body looks up the append prompt field to the
serialized append prompt. -/
theorem lookup_append_prompt (c : ClaudeFlow) :
    lookupField c.toJsonFields "append_prompt" = some c.append_prompt.toJson := by
  simp [ClaudeFlow.toJsonFields, lookupField]

/-- The serialized body looks up the non-interactive flag field to the
serialized flag. -/
theorem lookup_non_interactive (c : ClaudeFlow) :
    lookupField c.toJsonFields "non_interactive" = c.non_interactive.map JsonVal.bool := by
  cases hv : c.non_interactive <;>
    simp [ClaudeFlow.toJsonFields, CmdOverrides.toJsonFields, lookupField,
      lookupField_append, lookupField_optField_same, lookupField_optField_ne, hv]

/-- The serialized body looks up the chaining flag field to the
serialized flag. -/
theorem lookup_enable_chaining (c : ClaudeFlow) :
    lookupField c.toJsonFields "enable_chaining" = c.enable_chaining.map JsonVal.bool := by
  cases hv : c.enable_chaining <;>
    simp [ClaudeFlow.toJsonFields, CmdOverrides.toJsonFields, lookupField,
      lookupField_append, lookupField_optField_same, lookupField_optField_ne, hv]

/-- The serialized body looks up the agent field to the serialized id. -/
theorem lookup_agent_id (c : ClaudeFlow) :
    lookupField c.toJsonFields "agent_id" = c.agent_id.map JsonVal.str := by
  cases hv : c.agent_id <;>
    simp [ClaudeFlow.toJsonFields, CmdOverrides.toJsonFields, lookupField,
      lookupField_append, lookupField_optField_same, lookupField_optField_ne, hv]

/-- The serialized body looks up the workflow field to the serialized
file name. -/
theorem lookup_workflow_file (c : ClaudeFlow) :
    lookupField c.toJsonFields "workflow_file" = c.workflow_file.map JsonVal.str := by
  cases hv : c.workflow_file <;>
    simp [ClaudeFlow.toJsonFields, CmdOverrides.toJsonFields, lookupField,
      lookupField_append, lookupField_optField_same, lookupField_optField_ne, hv]

/-- The serialized body looks up the task field to the serialized
description. -/
theorem lookup_task_description (c : ClaudeFlow) :
    lookupField c.toJsonFields "task_description" = c.task_description.map JsonVal.str := by
  cases hv : c.task_description <;>
    simp [ClaudeFlow.toJsonFields, CmdOverrides.toJsonFields, lookupField,
      lookupField_append, lookupField_optField_same, lookupField_optField_ne, hv]

/-- The serialized body looks up the flattened base override field to
the serialized override. -/
theorem lookup_base_command_override (c : ClaudeFlow) :
    lookupField c.toJsonFields "base_command_override" =
      c.cmd.base_command_override.map JsonVal.str := by
  cases hv : c.cmd.base_command_override <;>
    simp [ClaudeFlow.toJsonFields, CmdOverrides.toJsonFields, lookupField,
      lookupField_append, lookupField_optField_same, lookupField_optField_ne, hv]

/-- The serialized body looks up the flattened parameter field to the
serialized parameter list. -/
theorem lookup_additional_params (c : ClaudeFlow) :
    lookupField c.toJsonFields "additional_params" =
      c.cmd.additional_params.map (fun ps => JsonVal.arr (ps.map JsonVal.str)) := by
  cases hv : c.cmd.additional_params <;>
    simp [ClaudeFlow.toJsonFields, CmdOverrides.toJsonFields, lookupField,
      lookupField_append, lookupField_optField_same, lookupField_optField_ne, hv]

/-- The serialized body looks up the flattened environment field to the
serialized overlay. -/
theorem lookup_env (c : ClaudeFlow) :
    lookupField c.toJsonFields "env" =
      c.cmd.env.map
        (fun kvs => JsonVal.obj (kvs.map (fun kv => (kv.1, JsonVal.str kv.2)))) := by
  cases hv : c.cmd.env <;>
    simp [ClaudeFlow.toJsonFields, CmdOverrides.toJsonFields, lookupField,
      lookupField_append, lookupField_optField_same, lookupField_optField_ne, hv]

/-- Decoding the append prompt of a serialized body restores it. -/
theorem decodeAppendPrompt_roundtrip (c : ClaudeFlow) :
    decodeAppendPrompt c.toJsonFields = some c.append_prompt := by
  rcases hap : c.append_prompt with ⟨_ | s⟩ <;>
    simp [decodeAppendPrompt, lookup_append_prompt, hap, AppendPrompt.toJson]

/-- Decoding an optional flag field whose lookup is a serialized flag
restores the flag. -/
theorem decodeOptBool_of_lookup (fields : List (String × JsonVal)) (name : String)
    (v : Option Bool) (h : lookupField fields name = v.map JsonVal.bool) :
    decodeOptBool fields name = some v := by
  cases v <;> simp [decodeOptBool, h]

/-- Decoding an optional string field whose lookup is a serialized
string restores the string. -/
theorem decodeOptStr_of_lookup (fields : List (String × JsonVal)) (name : String)
    (v : Option String) (h : lookupField fields name = v.map JsonVal.str) :
    decodeOptStr fields name = some v := by
  cases v <;> simp [decodeOptStr, h]

/-- Decoding an optional string-list field whose lookup is a serialized
list restores the list. -/
theorem decodeOptParams_of_lookup (fields : List (String × JsonVal)) (name : String)
    (v : Option (List String))
    (h : lookupField fields name = v.map (fun ps => JsonVal.arr (ps.map JsonVal.str))) :
    decodeOptParams fields name = some v := by
  cases v <;> simp [decodeOptParams, h, decodeStrList_map_str]

/-- Decoding an optional environment field whose lookup is a serialized
overlay restores the overlay. -/
theorem decodeOptEnv_of_lookup (fields : List (String × JsonVal)) (name : String)
    (v : Option (List (String × String)))
    (h : lookupField fields name =
      v.map (fun kvs => JsonVal.obj (kvs.map (fun kv => (kv.1, JsonVal.str kv.2))))) :
    decodeOptEnv fields name = some v := by
  cases v <;> simp [decodeOptEnv, h, decodeEnvFields_map]

/-- C10: JSON serialization of a configuration followed by
deserialization restores the original value — all six configuration
fields and the flattened command overrides survive the round trip. -/
theorem c10_serialization_roundtrip :
    ∀ c : ClaudeFlow, ClaudeFlow.fromJson c.toJson = some c := by
  intro c
  have h1 := decodeAppendPrompt_roundtrip c
  have h2 := decodeOptBool_of_lookup c.toJsonFields "non_interactive" c.non_interactive
    (lookup_non_interactive c)
  have h3 := decodeOptBool_of_lookup c.toJsonFields "enable_chaining" c.enable_chaining
    (lookup_enable_chaining c)
  have h4 := decodeOptStr_of_lookup c.toJsonFields "agent_id" c.agent_id
    (lookup_agent_id c)
  have h5 := decodeOptStr_of_lookup c.toJsonFields "workflow_file" c.workflow_file
    (lookup_workflow_file c)
  have h6 := decodeOptStr_of_lookup c.toJsonFields "task_description" c.task_description
    (lookup_task_description c)
  have h7 := decodeOptStr_of_lookup c.toJsonFields "base_command_override"
    c.cmd.base_command_override (lookup_base_command_override c)
  have h8 := decodeOptParams_of_lookup c.toJsonFields "additional_params"
    c.cmd.additional_params (lookup_additional_params c)
  have h9 := decodeOptEnv_of_lookup c.toJsonFields "env" c.cmd.env (lookup_env c)
  simp only [ClaudeFlow.toJson, ClaudeFlow.fromJson, h1, h2, h3, h4, h5, h6, h7, h8, h9]
